import Mathlib

/-!
Verification of the Stockfish transposition table (src/src/tt.h) against its
natural-language specification.

The entry accessors, the generation constants, `GENERATION_AGE_BY8`,
`new_search` and `first_entry` are translated directly from `src/src/tt.h`.
The bodies of `TTEntry::save`, `TranspositionTable::probe`, `hashfull`,
`resize` and `clear` (declared in the header, implemented in a `tt.cpp` that
is not part of the sources), and `mul_hi64` (from `misc.h`, also absent), are
modelled from the specification; each such definition carries a doc comment
saying so.

Machine integers are embedded as `Nat` bit patterns of the declared width
(with explicit `% 2^w` where C performs a narrowing conversion); the signed
16-bit fields `value16`/`eval16` are stored as their 16-bit patterns and
decoded by sign extension, matching two's-complement `int16_t`.
-/

set_option maxRecDepth 10000

namespace Stockfish

/-- `DEPTH_OFFSET` from `types.h` (not under src/): the fixed minimum-depth
offset subtracted at store time and re-added by `TTEntry::depth()`. -/
def DEPTH_OFFSET : Int := -7

/-- `MOVE_NONE` from `types.h` (not under src/): the null move, encoded 0. -/
def MOVE_NONE : Nat := 0

/-- `VALUE_NONE` from `types.h` (not under src/): the "no value" sentinel. -/
def VALUE_NONE : Int := 32002

/-- Sign extension of a 16-bit pattern, i.e. reading a `uint16_t` bit pattern
as the `int16_t` it denotes (the cast in `value()` / `eval()`). -/
def decodeInt16 (n : Nat) : Int :=
  if n < 32768 then (n : Int) else (n : Int) - 65536

/-- Narrowing conversion of an integer to its 16-bit pattern, i.e. the
`(int16_t)`/`(uint16_t)` casts performed when storing a field. -/
def encodeInt16 (v : Int) : Nat :=
  (v % 65536).toNat

/-- The 10-byte transposition table entry of `src/src/tt.h` lines 42-61:
fields `key16`, `depth8`, `genBound8`, `move16`, `value16`, `eval16`,
each held as the `Nat` bit pattern of the corresponding machine integer. -/
structure TTEntry where
  key16 : Nat
  depth8 : Nat
  genBound8 : Nat
  move16 : Nat
  value16 : Nat
  eval16 : Nat
deriving DecidableEq

/-- The canonical all-zero "empty" entry (spec §3: an all-zero entry is the
canonical empty state). -/
def emptyEntry : TTEntry :=
  { key16 := 0, depth8 := 0, genBound8 := 0, move16 := 0, value16 := 0, eval16 := 0 }

/-- `TTEntry::move()` (tt.h line 44). -/
def TTEntry.move (e : TTEntry) : Nat := e.move16

/-- `TTEntry::value()` (tt.h line 45): the stored pattern read as `int16_t`. -/
def TTEntry.value (e : TTEntry) : Int := decodeInt16 e.value16

/-- `TTEntry::eval()` (tt.h line 46): the stored pattern read as `int16_t`. -/
def TTEntry.eval (e : TTEntry) : Int := decodeInt16 e.eval16

/-- `TTEntry::depth()` (tt.h line 47): re-adds `DEPTH_OFFSET`. -/
def TTEntry.depth (e : TTEntry) : Int := (e.depth8 : Int) + DEPTH_OFFSET

/-- `TTEntry::is_pv()` (tt.h line 48): bit 2 of `genBound8`. -/
def TTEntry.is_pv (e : TTEntry) : Bool := e.genBound8 &&& 4 != 0

/-- `TTEntry::bound()` (tt.h line 49): the low two bits of `genBound8`. -/
def TTEntry.bound (e : TTEntry) : Nat := e.genBound8 &&& 3

/-- Modelled from the spec: the body of `TTEntry::save` (declared at tt.h
line 50) is in `tt.cpp`, which is not under src/. Per spec §4.1 it encodes
and overwrites all fields of the entry, except that when the incoming key
matches the entry's current key the existing move is preserved if no move
(the null move) is supplied, and the existing eval is preserved if the new
eval is the "none" value; the generation tag is unconditionally set to the
table's current generation combined with the supplied pv/bound bits (layout
per tt.h lines 27-40: generation in the high 5 bits, pv at bit 2, bound in
the low 2 bits). Depth is stored as an 8-bit offset from `DEPTH_OFFSET`
(spec §3), keys and moves are truncated to 16 bits as by the C casts. -/
def TTEntry.save (e : TTEntry) (generation8 : Nat) (k : Nat) (v : Int)
    (pv : Bool) (b : Nat) (d : Int) (m : Nat) (ev : Int) : TTEntry :=
  { key16 := k % 65536
    depth8 := ((d - DEPTH_OFFSET) % 256).toNat
    genBound8 := generation8 ||| ((if pv then 1 else 0) <<< 2) ||| b
    move16 := if m = MOVE_NONE ∧ k % 65536 = e.key16 then e.move16 else m % 65536
    value16 := encodeInt16 v
    eval16 := if ev = VALUE_NONE ∧ k % 65536 = e.key16 then e.eval16 else encodeInt16 ev }

/-- `GENERATION_NONBITS` (tt.h line 90): bits reserved for pv/bound. -/
def GENERATION_NONBITS : Nat := 3

/-- `GENERATION_INCR` (tt.h line 91): `1 << GENERATION_NONBITS`. -/
def GENERATION_INCR : Nat := 1 <<< GENERATION_NONBITS

/-- `GENERATION_NONMASK` (tt.h line 92): `GENERATION_INCR - 1`. -/
def GENERATION_NONMASK : Nat := GENERATION_INCR - 1

/-- `GENERATION_MASK` (tt.h line 93): `~GENERATION_NONMASK` as a `uint8_t`,
i.e. the complement of the low-3-bits mask within one byte. -/
def GENERATION_MASK : Nat := 255 - GENERATION_NONMASK

/-- `GENERATION_MODULUS` (tt.h line 104):
`(uint16_t(GENERATION_MASK) + GENERATION_INCR) | GENERATION_NONMASK`. -/
def GENERATION_MODULUS : Nat := (GENERATION_MASK + GENERATION_INCR) ||| GENERATION_NONMASK

/-- `TranspositionTable::GENERATION_AGE_BY8` (tt.h lines 105-111), as a
function of the table's `generation8` and the entry's `genBound8`:
`((GENERATION_MODULUS + generation8) - TTEgenBound8) & GENERATION_MASK`.
For `genBound8 < 256` the C `int` subtraction never goes negative
(`GENERATION_MODULUS = 263 > 255`), so `Nat` subtraction coincides with it. -/
def GENERATION_AGE_BY8 (generation8 TTEgenBound8 : Nat) : Nat :=
  ((GENERATION_MODULUS + generation8) - TTEgenBound8) &&& GENERATION_MASK

/-- Modelled from the spec: `mul_hi64` comes from `misc.h`, which is not
under src/. Spec §4.2: the high 64 bits of the full 128-bit product of the
key and `clusterCount`. -/
def mul_hi64 (a b : Nat) : Nat := (a * b) >>> 64

/-- A cluster (tt.h lines 72-77): `ClusterSize = 3` entries (the 2 padding
bytes carry no data and are not modelled as state). -/
structure Cluster where
  e0 : TTEntry
  e1 : TTEntry
  e2 : TTEntry
deriving DecidableEq

/-- Entry of a cluster by scan position (`entry[0]`, `entry[1]`, `entry[2]`). -/
def Cluster.get (c : Cluster) : Nat → TTEntry
  | 0 => c.e0
  | 1 => c.e1
  | _ => c.e2

/-- Overwrite the entry at a scan position. -/
def Cluster.set (c : Cluster) : Nat → TTEntry → Cluster
  | 0, e => { c with e0 := e }
  | 1, e => { c with e1 := e }
  | _, e => { c with e2 := e }

/-- The all-empty cluster (zeroed memory). -/
def emptyCluster : Cluster :=
  { e0 := emptyEntry, e1 := emptyEntry, e2 := emptyEntry }

/-- The `TranspositionTable` state (tt.h lines 70-133): the current
generation byte, the number of clusters, and the backing array of clusters
(modelled as a total map from cluster index). -/
structure TranspositionTable where
  generation8 : Nat
  clusterCount : Nat
  table : Nat → Cluster

/-- `TranspositionTable::new_search` (tt.h line 115):
`generation8 += GENERATION_INCR`, with `uint8_t` wraparound. -/
def TranspositionTable.new_search (tt : TranspositionTable) : TranspositionTable :=
  { tt with generation8 := (tt.generation8 + GENERATION_INCR) % 256 }

/-- Cluster index of a key: `mul_hi64(key, clusterCount)`, the index used by
`first_entry` (tt.h lines 121-123). -/
def TranspositionTable.clusterIndex (tt : TranspositionTable) (key : Nat) : Nat :=
  mul_hi64 key tt.clusterCount

/-- `TranspositionTable::first_entry` (tt.h lines 121-123): the address of
entry 0 of the key's cluster, modelled as the pair (cluster index, entry
index 0). It depends only on the key and `clusterCount`, never on the
table's contents. -/
def TranspositionTable.first_entry (tt : TranspositionTable) (key : Nat) : Nat × Nat :=
  (tt.clusterIndex key, 0)

/-- An entry of the cluster matches a probed key when its stored 16-bit key
equals the low 16 bits of the key and the entry is not the canonical empty
entry (spec §3/§8: an all-zero entry is the canonical empty state and a
never-written key must miss). -/
def entryMatch (k16 : Nat) (e : TTEntry) : Prop :=
  e.key16 = k16 ∧ e ≠ emptyEntry

instance (k16 : Nat) (e : TTEntry) : Decidable (entryMatch k16 e) := by
  unfold entryMatch; infer_instance

/-- Scan position of the first matching entry of the cluster, if any
(spec §4.2 step 2, scan order = array order). -/
def Cluster.findMatch (c : Cluster) (k16 : Nat) : Option Nat :=
  if entryMatch k16 c.e0 then some 0
  else if entryMatch k16 c.e1 then some 1
  else if entryMatch k16 c.e2 then some 2
  else none

/-- Modelled from the spec: the replacement score of an entry (spec §4.2
step 3): `entryDepth - 8 * relativeAge`, where `GENERATION_AGE_BY8` already
returns eight times the relative age; an empty entry is treated as having
the minimum possible score (a sentinel strictly below every value the
formula can take on a non-empty entry). -/
def replScore (gen : Nat) (e : TTEntry) : Int :=
  if e = emptyEntry then -100000
  else (e.depth8 : Int) + DEPTH_OFFSET - (GENERATION_AGE_BY8 gen e.genBound8 : Int)

/-- Scan position of the entry with the lowest replacement score, ties
broken by scan order (earliest wins) — spec §4.2 step 3. -/
def Cluster.bestReplace (c : Cluster) (gen : Nat) : Nat :=
  if replScore gen c.e0 ≤ replScore gen c.e1 then
    (if replScore gen c.e0 ≤ replScore gen c.e2 then 0 else 2)
  else
    (if replScore gen c.e1 ≤ replScore gen c.e2 then 1 else 2)

/-- Refresh an entry's generation tag in place to the current generation,
preserving the pv/bound (non-generation) bits it carries (spec §4.2 step 2). -/
def refreshGen (gen : Nat) (e : TTEntry) : TTEntry :=
  { e with genBound8 := gen ||| (e.genBound8 &&& GENERATION_NONMASK) }

/-- Overwrite one entry of the table, leaving every other entry unchanged. -/
def TranspositionTable.setEntry (tt : TranspositionTable) (ci ei : Nat)
    (e : TTEntry) : TranspositionTable :=
  { tt with table := fun i => if i = ci then (tt.table ci).set ei e else tt.table i }

/-- Result of a probe: the table after the probe's in-place generation
refresh, the `found` flag, and the cluster/entry indices of the returned
entry (the write handle). -/
structure ProbeResult where
  tt : TranspositionTable
  found : Bool
  cidx : Nat
  eidx : Nat

/-- Modelled from the spec: the body of `TranspositionTable::probe`
(declared at tt.h line 116) is in `tt.cpp`, which is not under src/.
Spec §4.2: resolve the key's cluster; scan its 3 entries for one whose
stored 16-bit key matches the low 16 bits of the key (an all-zero empty
entry never counts as a match, per §3/§8); on a match, refresh that entry's
generation tag in place and return it with `found = true`; otherwise return
`found = false` and bind the write handle to the entry with the lowest
replacement score (ties broken by scan order). -/
def TranspositionTable.probe (tt : TranspositionTable) (key : Nat) : ProbeResult :=
  match (tt.table (tt.clusterIndex key)).findMatch (key % 65536) with
  | some i =>
      { tt := tt.setEntry (tt.clusterIndex key) i
                (refreshGen tt.generation8 ((tt.table (tt.clusterIndex key)).get i)),
        found := true, cidx := tt.clusterIndex key, eidx := i }
  | none =>
      { tt := tt, found := false, cidx := tt.clusterIndex key,
        eidx := (tt.table (tt.clusterIndex key)).bestReplace tt.generation8 }

/-- Modelled from the spec: `TTWriter`-style write through a probe's handle
(spec §4.2): delegates to `TTEntry.save` on the bound entry, using the
table's current generation. -/
def TranspositionTable.store (tt : TranspositionTable) (ci ei : Nat) (k : Nat)
    (v : Int) (pv : Bool) (b : Nat) (d : Int) (m : Nat) (ev : Int) :
    TranspositionTable :=
  tt.setEntry ci ei (((tt.table ci).get ei).save tt.generation8 k v pv b d m ev)

/-- Modelled from the spec: the body of `TranspositionTable::clear`
(declared at tt.h line 119) is in `tt.cpp`, which is not under src/.
Spec §4.2: zeroes the existing backing array in place, changing neither the
size nor the generation counter. -/
def TranspositionTable.clear (tt : TranspositionTable) : TranspositionTable :=
  { tt with table := fun _ => emptyCluster }

/-- Modelled from the spec: the body of `TranspositionTable::resize`
(declared at tt.h line 118) is in `tt.cpp`, which is not under src/.
Spec §4.2: computes `clusterCount` from the requested megabyte budget
(32-byte clusters) and fully zero-initializes the new backing array. -/
def TranspositionTable.resize (tt : TranspositionTable) (mbSize : Nat) :
    TranspositionTable :=
  { tt with clusterCount := mbSize * 1024 * 1024 / 32,
            table := fun _ => emptyCluster }

/-- Number of entries of a cluster whose stored generation tag matches the
table's current generation. -/
def clusterGenCount (gen : Nat) (c : Cluster) : Nat :=
  (if c.e0.genBound8 &&& GENERATION_MASK = gen then 1 else 0) +
  (if c.e1.genBound8 &&& GENERATION_MASK = gen then 1 else 0) +
  (if c.e2.genBound8 &&& GENERATION_MASK = gen then 1 else 0)

/-- Matching-generation entries over the first `n` clusters of the table. -/
def TranspositionTable.genCountPrefix (tt : TranspositionTable) : Nat → Nat
  | 0 => 0
  | n + 1 => tt.genCountPrefix n + clusterGenCount tt.generation8 (tt.table n)

/-- Modelled from the spec: the body of `TranspositionTable::hashfull`
(declared at tt.h line 117) is in `tt.cpp`, which is not under src/.
Spec §4.2: sample a fixed, contiguous prefix of clusters (1000 clusters,
3000 entries), count entries whose stored generation matches the table's
current generation tag, and scale to parts-per-thousand (divide the entry
count by the cluster size). Purely observational: a function of the state. -/
def TranspositionTable.hashfull (tt : TranspositionTable) : Nat :=
  tt.genCountPrefix 1000 / 3

/-- C standard-layout struct size computation: fold the (size, alignment)
pairs of the member list in declaration order, aligning each member's offset
up to its alignment and the final size up to the struct's alignment. -/
def structLayout (fields : List (Nat × Nat)) : Nat × Nat :=
  let fit := fields.foldl
    (fun (acc : Nat × Nat) (f : Nat × Nat) =>
      let off := if f.2 = 0 then acc.1 else ((acc.1 + f.2 - 1) / f.2) * f.2
      (off + f.1, max acc.2 f.2))
    (0, 1)
  (if fit.2 = 0 then fit.1 else ((fit.1 + fit.2 - 1) / fit.2) * fit.2, fit.2)

/-- The (size, alignment) pairs of `TTEntry`'s members in declaration order
(tt.h lines 55-60): `uint16_t key16; uint8_t depth8; uint8_t genBound8;
uint16_t move16; int16_t value16; int16_t eval16;`. -/
def TTEntryFields : List (Nat × Nat) := [(2, 2), (1, 1), (1, 1), (2, 2), (2, 2), (2, 2)]

/-- `sizeof(TTEntry)` under the standard layout rules. -/
def sizeofTTEntry : Nat := (structLayout TTEntryFields).1

/-- The members of `Cluster` (tt.h lines 74-77): `TTEntry entry[3]`
(size `3 * sizeof(TTEntry)`, alignment of `TTEntry`) and `char padding[2]`. -/
def ClusterFields : List (Nat × Nat) :=
  [(3 * sizeofTTEntry, (structLayout TTEntryFields).2), (2, 1)]

/-- `sizeof(Cluster)` under the standard layout rules. -/
def sizeofCluster : Nat := (structLayout ClusterFields).1

/-- `ClusterSize` (tt.h line 72). -/
def ClusterSize : Nat := 3

/-- Concrete table used to exercise the generation-aging theorem: current
generation 8 (one `new_search` after startup). -/
def ttG : TranspositionTable :=
  { generation8 := 8, clusterCount := 1, table := fun _ => emptyCluster }

/-- A non-empty entry with 16-bit key 5, depth byte 1, generation 8 with
bound bits 1, and move 7; used to exercise the probe/save round trip. -/
def entryA : TTEntry :=
  { key16 := 5, depth8 := 1, genBound8 := 9, move16 := 7, value16 := 0, eval16 := 0 }

/-- Concrete table whose every cluster holds `entryA` first: a probe for any
key with low 16 bits 5 is a hit. -/
def ttC1 : TranspositionTable :=
  { generation8 := 8, clusterCount := 4,
    table := fun _ => { e0 := entryA, e1 := emptyEntry, e2 := emptyEntry } }

/-- Probe `ttC1` for key 5 (a hit on `entryA`). -/
def probeC1a : ProbeResult := ttC1.probe 5

/-- Write through the handle bound by `probeC1a`, supplying the null move
(`MOVE_NONE`) for a key that matches the entry's stored key. -/
def ttC1b : TranspositionTable :=
  probeC1a.tt.store probeC1a.cidx probeC1a.eidx 5 1 false 1 0 MOVE_NONE 9

/-- Re-probe for key 5 after the null-move write. -/
def probeC1b : ProbeResult := ttC1b.probe 5

/-- The entry produced by `save` when the supplied move is non-null and the
supplied eval is not `VALUE_NONE` (so neither preserve-on-match rule fires):
every field is overwritten with the encoded arguments. -/
def writtenEntry (gen key : Nat) (v : Int) (pv : Bool) (b : Nat) (d : Int)
    (m : Nat) (ev : Int) : TTEntry :=
  { key16 := key % 65536
    depth8 := ((d - DEPTH_OFFSET) % 256).toNat
    genBound8 := gen ||| ((if pv then 1 else 0) <<< 2) ||| b
    move16 := m
    value16 := encodeInt16 v
    eval16 := encodeInt16 ev }

/-- The data round-trip property of a probe on table `tt2`: the probe for
`key` hits, and the returned (post-refresh) entry's accessors decode exactly
the values `m`, `v`, `ev`, `d`, `b`, `pv`. -/
def roundTripOK (tt2 : TranspositionTable) (key : Nat) (v : Int) (pv : Bool)
    (b : Nat) (d : Int) (m : Nat) (ev : Int) : Prop :=
  (tt2.probe key).found = true
  ∧ (((tt2.probe key).tt.table (tt2.probe key).cidx).get (tt2.probe key).eidx).move = m
  ∧ (((tt2.probe key).tt.table (tt2.probe key).cidx).get (tt2.probe key).eidx).value = v
  ∧ (((tt2.probe key).tt.table (tt2.probe key).cidx).get (tt2.probe key).eidx).eval = ev
  ∧ (((tt2.probe key).tt.table (tt2.probe key).cidx).get (tt2.probe key).eidx).depth = d
  ∧ (((tt2.probe key).tt.table (tt2.probe key).cidx).get (tt2.probe key).eidx).bound = b
  ∧ (((tt2.probe key).tt.table (tt2.probe key).cidx).get (tt2.probe key).eidx).is_pv = pv

/-- The miss-path property of a probe: the probe reports `found = false`,
returns an in-cluster write handle, and that handle has the lowest
replacement score in the cluster, ties broken in favour of the earliest
entry in scan order. -/
def missSelectsMin (tt : TranspositionTable) (key : Nat) : Prop :=
  (tt.probe key).found = false
  ∧ (tt.probe key).cidx = tt.clusterIndex key
  ∧ (tt.probe key).eidx < 3
  ∧ (∀ j < 3,
      replScore tt.generation8 ((tt.table (tt.clusterIndex key)).get (tt.probe key).eidx)
        ≤ replScore tt.generation8 ((tt.table (tt.clusterIndex key)).get j))
  ∧ (∀ j < (tt.probe key).eidx,
      replScore tt.generation8 ((tt.table (tt.clusterIndex key)).get (tt.probe key).eidx)
        < replScore tt.generation8 ((tt.table (tt.clusterIndex key)).get j))

/-- A non-empty, current-generation entry of decoded depth `dep` (depth byte
`dep - DEPTH_OFFSET`) with stored key `k16`, for the replacement scenario. -/
def depthEntry (k16 : Nat) (dep : Int) : TTEntry :=
  { key16 := k16, depth8 := ((dep - DEPTH_OFFSET) % 256).toNat, genBound8 := 8,
    move16 := 1, value16 := 0, eval16 := 0 }

/-- Concrete table at generation 8 whose cluster holds three
current-generation entries of decoded depths 3, 10 and 1, with stored keys
1, 2, 3. -/
def ttC2 : TranspositionTable :=
  { generation8 := 8, clusterCount := 1,
    table := fun _ =>
      { e0 := depthEntry 1 3, e1 := depthEntry 2 10, e2 := depthEntry 3 1 } }

/-- A maximal-bit-pattern entry: every field all-ones. -/
def entryMax : TTEntry :=
  { key16 := 65535, depth8 := 255, genBound8 := 255, move16 := 65535,
    value16 := 65535, eval16 := 65535 }

/-- An entry with stored key 5, a stored move 7 and a stored eval 11, used
to exercise the preserve-on-match rules of `save`. -/
def entryB : TTEntry :=
  { key16 := 5, depth8 := 3, genBound8 := 8, move16 := 7, value16 := 2, eval16 := 11 }

/-- Concrete table with three clusters, for the index-resolution theorem. -/
def ttC7 : TranspositionTable :=
  { generation8 := 0, clusterCount := 3, table := fun _ => emptyCluster }

/-- The all-zero startup table state: generation byte 0 (tt.h line 129) and
a zeroed backing array. -/
def ttFresh : TranspositionTable :=
  { generation8 := 0, clusterCount := 32768, table := fun _ => emptyCluster }

/-- `ttFresh` after one `new_search`: generation 8, still all-zero entries. -/
def ttC9 : TranspositionTable := ttFresh.new_search

/-- A cluster all of whose entries carry generation 8 (with zero pv/bound
bits). -/
def genCluster : Cluster :=
  { e0 := { emptyEntry with genBound8 := 8, move16 := 1 },
    e1 := { emptyEntry with genBound8 := 8, move16 := 1 },
    e2 := { emptyEntry with genBound8 := 8, move16 := 1 } }

/-- A generation-8 table whose sampled prefix is entirely filled with
current-generation entries. -/
def ttC9full : TranspositionTable :=
  { generation8 := 8, clusterCount := 32768, table := fun _ => genCluster }

/-- Second table with the same `clusterCount` as `ttC7` but different
contents, exercising the contents-independence part of `first_entry`. -/
def ttC7b : TranspositionTable :=
  { generation8 := 8, clusterCount := 3, table := fun _ => genCluster }

theorem decode_encodeInt16 (v : Int) (h1 : -32768 ≤ v) (h2 : v < 32768) :
    decodeInt16 (encodeInt16 v) = v := by
  unfold decodeInt16 encodeInt16
  split <;> omega

theorem encode_decodeInt16 (n : Nat) (h : n < 65536) :
    encodeInt16 (decodeInt16 n) = n := by
  unfold decodeInt16 encodeInt16
  split <;> omega

theorem and248_eq_eight_mul_div : ∀ x < 256, x &&& 248 = 8 * (x / 8) := by decide

theorem age_formula_bounded : ∀ p < 32, ∀ b < 256,
    ((263 + 8 * p) - b) &&& 248 = 8 * ((p + 32 - b / 8) % 32) := by decide

theorem genBound_bits_bounded : ∀ q < 32, ∀ p < 2, ∀ b < 4,
    ((8 * q ||| ((8 * q ||| (p <<< 2) ||| b) &&& 7)) &&& 3 = b)
    ∧ ((8 * q ||| ((8 * q ||| (p <<< 2) ||| b) &&& 7)) &&& 4 = 4 * p)
    ∧ ((8 * q ||| (p <<< 2) ||| b) &&& 3 = b)
    ∧ ((8 * q ||| (p <<< 2) ||| b) &&& 4 = 4 * p) := by decide

theorem Cluster.get_set_self (c : Cluster) (i : Nat) (e : TTEntry) :
    (c.set i e).get i = e := by
  rcases i with _ | _ | i <;> rfl

theorem Cluster.get_set_ne (c : Cluster) (i j : Nat) (e : TTEntry)
    (hi : i < 3) (hj : j < 3) (h : j ≠ i) : (c.set i e).get j = c.get j := by
  rcases i with _ | _ | _ | i <;> rcases j with _ | _ | _ | j <;>
    simp_all [Cluster.set, Cluster.get] <;> omega

theorem Cluster.set_set (c : Cluster) (i : Nat) (a b : TTEntry) :
    (c.set i a).set i b = c.set i b := by
  rcases i with _ | _ | i <;> rfl

theorem Cluster.findMatch_spec (c : Cluster) (k16 i : Nat)
    (h : c.findMatch k16 = some i) :
    i < 3 ∧ entryMatch k16 (c.get i) ∧ ∀ j < i, ¬ entryMatch k16 (c.get j) := by
  unfold Cluster.findMatch at h
  split_ifs at h with h0 h1 h2 <;> injection h with h <;> subst h
  · exact ⟨by omega, h0, by omega⟩
  · refine ⟨by omega, h1, ?_⟩
    intro j hj
    interval_cases j
    exact h0
  · refine ⟨by omega, h2, ?_⟩
    intro j hj
    interval_cases j
    exacts [h0, h1]

theorem Cluster.findMatch_of (c : Cluster) (k16 i : Nat) (hi : i < 3)
    (hm : entryMatch k16 (c.get i)) (hprev : ∀ j < i, ¬ entryMatch k16 (c.get j)) :
    c.findMatch k16 = some i := by
  unfold Cluster.findMatch
  rw [show c.e0 = c.get 0 from rfl, show c.e1 = c.get 1 from rfl,
    show c.e2 = c.get 2 from rfl]
  interval_cases i
  · rw [if_pos hm]
  · rw [if_neg (hprev 0 (by omega)), if_pos hm]
  · rw [if_neg (hprev 0 (by omega)), if_neg (hprev 1 (by omega)), if_pos hm]

theorem Cluster.findMatch_none_iff (c : Cluster) (k16 : Nat) :
    c.findMatch k16 = none ↔ ∀ j < 3, ¬ entryMatch k16 (c.get j) := by
  unfold Cluster.findMatch
  rw [show c.e0 = c.get 0 from rfl, show c.e1 = c.get 1 from rfl,
    show c.e2 = c.get 2 from rfl]
  constructor
  · intro h j hj
    split_ifs at h
    interval_cases j <;> assumption
  · intro h
    rw [if_neg (h 0 (by omega)), if_neg (h 1 (by omega)), if_neg (h 2 (by omega))]

theorem Cluster.bestReplace_lt (c : Cluster) (gen : Nat) :
    c.bestReplace gen < 3 := by
  unfold Cluster.bestReplace
  split_ifs <;> omega

theorem Cluster.bestReplace_min (c : Cluster) (gen : Nat) :
    ∀ j < 3, replScore gen (c.get (c.bestReplace gen)) ≤ replScore gen (c.get j) := by
  intro j hj
  unfold Cluster.bestReplace
  interval_cases j <;> split_ifs <;> simp only [Cluster.get] <;> omega

theorem Cluster.bestReplace_earliest (c : Cluster) (gen : Nat) :
    ∀ j < c.bestReplace gen,
      replScore gen (c.get (c.bestReplace gen)) < replScore gen (c.get j) := by
  intro j hj
  have h3 : c.bestReplace gen < 3 := c.bestReplace_lt gen
  unfold Cluster.bestReplace at hj ⊢
  split_ifs at hj ⊢ <;> interval_cases j <;> simp only [Cluster.get] <;> omega

/-- C10: a `TTEntry` packs its six fields into exactly 10 bytes under the
standard layout rules, a `Cluster` is exactly `ClusterSize = 3` entries plus
2 bytes of padding, and `sizeof(Cluster) = 32`, so the static assertion of
tt.h line 79 holds. -/
theorem tt_entry_cluster_layout :
    sizeofTTEntry = 10
    ∧ ClusterSize = 3
    ∧ sizeofCluster = ClusterSize * sizeofTTEntry + 2
    ∧ sizeofCluster = 32 := by
  decide

/-- C4: for every depth `d` in `[DEPTH_OFFSET, DEPTH_OFFSET + 254]`, saving
`d` and reading it back through the `depth()` accessor returns exactly `d`
(the accessor re-adds `DEPTH_OFFSET` to the stored 8-bit offset). -/
theorem depth_roundtrip (e : TTEntry) (gen k : Nat) (v : Int) (pv : Bool)
    (b : Nat) (m : Nat) (ev : Int) (d : Int)
    (h1 : DEPTH_OFFSET ≤ d) (h2 : d ≤ DEPTH_OFFSET + 254) :
    (e.save gen k v pv b d m ev).depth = d := by
  unfold TTEntry.save TTEntry.depth DEPTH_OFFSET at *
  simp only
  omega

theorem depth_roundtrip_witness :
    (Stockfish.emptyEntry.save 8 5 0 false 1 3 1 0).depth = 3 :=
  depth_roundtrip emptyEntry 8 5 0 false 1 1 0 3 (by decide) (by decide)

/-- C5: when `save` is called with a key matching the entry's stored 16-bit
key, a null move leaves the stored move unchanged and a "none" eval leaves
the stored eval unchanged; and in every call the generation byte is
unconditionally set to the table's current generation combined with the
supplied pv and bound bits. -/
theorem save_partial_update (e : TTEntry) (gen k : Nat) (v : Int) (pv : Bool)
    (b : Nat) (d : Int) (m : Nat) (ev : Int) :
    (k % 65536 = e.key16 → (e.save gen k v pv b d MOVE_NONE ev).move16 = e.move16)
    ∧ (k % 65536 = e.key16 → ev = VALUE_NONE →
        (e.save gen k v pv b d m ev).eval16 = e.eval16)
    ∧ (e.save gen k v pv b d m ev).genBound8
        = gen ||| ((if pv then 1 else 0) <<< 2) ||| b := by
  refine ⟨?_, ?_, rfl⟩
  · intro h
    simp [TTEntry.save, h]
  · intro h hev
    simp [TTEntry.save, h, hev]

theorem save_partial_update_witness :
    (entryB.save 16 5 1 true 2 4 MOVE_NONE VALUE_NONE).move16 = entryB.move16
    ∧ (entryB.save 16 5 1 true 2 4 3 VALUE_NONE).eval16 = entryB.eval16
    ∧ (entryB.save 16 5 1 true 2 4 3 VALUE_NONE).genBound8
        = 16 ||| ((if true then 1 else 0) <<< 2) ||| 2 :=
  ⟨(save_partial_update entryB 16 5 1 true 2 4 3 VALUE_NONE).1 (by decide),
   (save_partial_update entryB 16 5 1 true 2 4 3 VALUE_NONE).2.1 (by decide) rfl,
   (save_partial_update entryB 16 5 1 true 2 4 3 VALUE_NONE).2.2⟩

/-- C7: for every 64-bit key and every `clusterCount ≥ 1`, the cluster index
(the high 64 bits of the 128-bit product of key and `clusterCount`) is
strictly below `clusterCount`, `first_entry` addresses entry 0 of that
cluster, and it depends only on the key and `clusterCount` (it performs no
search: any table with the same `clusterCount` yields the same address). -/
theorem first_entry_in_bounds (tt : TranspositionTable) (key : Nat)
    (hkey : key < 2 ^ 64) (hcc : 1 ≤ tt.clusterCount) :
    (tt.first_entry key).1 < tt.clusterCount
    ∧ (tt.first_entry key).2 = 0
    ∧ ∀ tt' : TranspositionTable, tt'.clusterCount = tt.clusterCount →
        tt'.first_entry key = tt.first_entry key := by
  refine ⟨?_, rfl, ?_⟩
  · show mul_hi64 key tt.clusterCount < tt.clusterCount
    unfold mul_hi64
    rw [Nat.shiftRight_eq_div_pow]
    rw [Nat.div_lt_iff_lt_mul (Nat.pos_pow_of_pos 64 (by omega))]
    calc key * tt.clusterCount < 2 ^ 64 * tt.clusterCount :=
          Nat.mul_lt_mul_of_lt_of_le hkey (Nat.le_refl _) (by omega)
      _ = tt.clusterCount * 2 ^ 64 := Nat.mul_comm _ _
  · intro tt' h
    unfold TranspositionTable.first_entry TranspositionTable.clusterIndex
    rw [h]

theorem first_entry_in_bounds_witness :
    (ttC7.first_entry 18446744073709551615).1 < ttC7.clusterCount
    ∧ (ttC7.first_entry 18446744073709551615).2 = 0
    ∧ ttC7b.first_entry 18446744073709551615 = ttC7.first_entry 18446744073709551615 :=
  ⟨(first_entry_in_bounds ttC7 18446744073709551615 (by decide) (by decide)).1,
   (first_entry_in_bounds ttC7 18446744073709551615 (by decide) (by decide)).2.1,
   (first_entry_in_bounds ttC7 18446744073709551615 (by decide) (by decide)).2.2 ttC7b rfl⟩

/-- C8: on every bit pattern of the stored bytes, each decoding accessor is
total and in range: `bound()` is a 2-bit value, `is_pv()` a boolean,
`depth()` lies in `[DEPTH_OFFSET, DEPTH_OFFSET + 255]`, `move()` is the
stored 16-bit pattern, and `value()`/`eval()` are exactly the stored 16-bit
patterns read as `int16_t` (in `[-32768, 32767]`, re-encoding to the stored
bits). -/
theorem accessors_total (e : TTEntry) (hd : e.depth8 < 256)
    (hm : e.move16 < 65536) (hv : e.value16 < 65536) (he : e.eval16 < 65536) :
    e.bound < 4
    ∧ (e.is_pv = true ∨ e.is_pv = false)
    ∧ DEPTH_OFFSET ≤ e.depth ∧ e.depth ≤ DEPTH_OFFSET + 255
    ∧ e.move = e.move16 ∧ e.move < 65536
    ∧ -32768 ≤ e.value ∧ e.value < 32768 ∧ encodeInt16 e.value = e.value16
    ∧ -32768 ≤ e.eval ∧ e.eval < 32768 ∧ encodeInt16 e.eval = e.eval16 := by
  have hb : e.genBound8 &&& 3 ≤ 3 := Nat.and_le_right
  refine ⟨by unfold TTEntry.bound; omega, Bool.eq_false_or_eq_true e.is_pv, ?_, ?_, rfl, hm, ?_, ?_, encode_decodeInt16 e.value16 hv, ?_, ?_, encode_decodeInt16 e.eval16 he⟩
  · unfold TTEntry.depth DEPTH_OFFSET; omega
  · unfold TTEntry.depth DEPTH_OFFSET; omega
  · unfold TTEntry.value decodeInt16; split <;> omega
  · unfold TTEntry.value decodeInt16; split <;> omega
  · unfold TTEntry.eval decodeInt16; split <;> omega
  · unfold TTEntry.eval decodeInt16; split <;> omega

theorem accessors_total_witness :
    entryMax.bound < 4
    ∧ (entryMax.is_pv = true ∨ entryMax.is_pv = false)
    ∧ DEPTH_OFFSET ≤ entryMax.depth ∧ entryMax.depth ≤ DEPTH_OFFSET + 255
    ∧ entryMax.move = entryMax.move16 ∧ entryMax.move < 65536
    ∧ -32768 ≤ entryMax.value ∧ entryMax.value < 32768
    ∧ encodeInt16 entryMax.value = entryMax.value16
    ∧ -32768 ≤ entryMax.eval ∧ entryMax.eval < 32768
    ∧ encodeInt16 entryMax.eval = entryMax.eval16 :=
  accessors_total entryMax (by decide) (by decide) (by decide) (by decide)

theorem age_by8_formula (g : Nat) (hlt : g < 256) (h8 : g % 8 = 0) :
    ∀ b < 256, GENERATION_AGE_BY8 g b = 8 * ((g / 8 + 32 - b / 8) % 32) := by
  intro b hb
  have hform := age_formula_bounded (g / 8) (by omega) b hb
  have hrepr : GENERATION_AGE_BY8 g b = ((263 + 8 * (g / 8)) - b) &&& 248 := by
    unfold GENERATION_AGE_BY8
    rw [show GENERATION_MODULUS = 263 from rfl, show GENERATION_MASK = 248 from rfl,
      show 263 + g = 263 + 8 * (g / 8) by omega]
  rw [hrepr, hform]

theorem new_search_iterate (tt : TranspositionTable) (hg : tt.generation8 < 256) :
    ∀ n, (TranspositionTable.new_search^[n] tt).generation8
      = (tt.generation8 + 8 * n) % 256 := by
  intro n
  induction n with
  | zero => simp only [Function.iterate_zero, id]; omega
  | succ n ih =>
      rw [Function.iterate_succ_apply']
      show ((TranspositionTable.new_search^[n] tt).generation8 + GENERATION_INCR) % 256 = _
      rw [ih, show GENERATION_INCR = 8 from rfl]
      omega

/-- C3: for every table generation byte (low 3 bits zero) and every stored
`genBound8` byte, `GENERATION_AGE_BY8` equals exactly 8 times the 5-bit
generation difference `(currentGeneration - entryGeneration) mod 32`; the
subtrahend never exceeds the minuend `GENERATION_MODULUS + generation8` (no
underflow). Consequently an entry tagged with the current generation has
8×age 8 (relative age 1) after one `new_search()`, and after 32
`new_search()` calls with no refresh its relative age wraps back to 0. -/
theorem generation_age (tt : TranspositionTable) (b : Nat)
    (hg : tt.generation8 < 256) (hg8 : tt.generation8 % 8 = 0) (hb : b < 256) :
    GENERATION_AGE_BY8 tt.generation8 b
        = 8 * ((tt.generation8 / 8 + 32 - b / 8) % 32)
    ∧ b ≤ GENERATION_MODULUS + tt.generation8
    ∧ (b &&& GENERATION_MASK = tt.generation8 →
        GENERATION_AGE_BY8 (tt.new_search).generation8 b = 8
        ∧ GENERATION_AGE_BY8 (TranspositionTable.new_search^[32] tt).generation8 b = 0) := by
  refine ⟨age_by8_formula tt.generation8 hg hg8 b hb, ?_, ?_⟩
  · rw [show GENERATION_MODULUS = 263 from rfl]
    omega
  · intro hgen
    rw [show GENERATION_MASK = 248 from rfl,
      and248_eq_eight_mul_div b hb] at hgen
    constructor
    · have hns : (tt.new_search).generation8 = (tt.generation8 + 8) % 256 := rfl
      rw [hns, age_by8_formula ((tt.generation8 + 8) % 256) (by omega) (by omega) b hb]
      omega
    · rw [new_search_iterate tt hg 32,
        age_by8_formula ((tt.generation8 + 8 * 32) % 256) (by omega) (by omega) b hb]
      omega

theorem generation_age_witness :
    GENERATION_AGE_BY8 ttG.generation8 15 = 8 * ((ttG.generation8 / 8 + 32 - 15 / 8) % 32)
    ∧ 15 ≤ GENERATION_MODULUS + ttG.generation8
    ∧ GENERATION_AGE_BY8 (ttG.new_search).generation8 15 = 8
    ∧ GENERATION_AGE_BY8 (TranspositionTable.new_search^[32] ttG).generation8 15 = 0 :=
  ⟨(generation_age ttG 15 (by decide) (by decide) (by decide)).1,
   (generation_age ttG 15 (by decide) (by decide) (by decide)).2.1,
   ((generation_age ttG 15 (by decide) (by decide) (by decide)).2.2 (by decide)).1,
   ((generation_age ttG 15 (by decide) (by decide) (by decide)).2.2 (by decide)).2⟩

theorem emptyCluster_get (j : Nat) : emptyCluster.get j = emptyEntry := by
  rcases j with _ | _ | j <;> rfl

theorem age_by8_le (gen gb : Nat) : GENERATION_AGE_BY8 gen gb ≤ 248 := by
  unfold GENERATION_AGE_BY8
  rw [show GENERATION_MASK = 248 from rfl]
  exact Nat.and_le_right

/-- C2: when no entry of the key's cluster matches the low 16 bits of the
key, `probe` reports `found = false` and binds the write handle to the
in-cluster entry with the lowest replacement score
(`entryDepth - 8 * relativeAge`), ties broken in favour of the earliest
entry in scan order; and an empty entry always scores strictly below any
non-empty entry. -/
theorem probe_miss_selects_min (tt : TranspositionTable) (key : Nat)
    (hnm : ∀ j < 3, ¬ entryMatch (key % 65536) ((tt.table (tt.clusterIndex key)).get j)) :
    missSelectsMin tt key
    ∧ ∀ e eNE : TTEntry, e = emptyEntry → eNE ≠ emptyEntry →
        replScore tt.generation8 e < replScore tt.generation8 eNE := by
  have hfm : (tt.table (tt.clusterIndex key)).findMatch (key % 65536) = none :=
    (Cluster.findMatch_none_iff _ _).mpr hnm
  have hpr : tt.probe key
      = { tt := tt, found := false, cidx := tt.clusterIndex key,
          eidx := (tt.table (tt.clusterIndex key)).bestReplace tt.generation8 } := by
    unfold TranspositionTable.probe
    rw [hfm]
  unfold missSelectsMin
  rw [hpr]
  refine ⟨⟨rfl, rfl, Cluster.bestReplace_lt _ _, Cluster.bestReplace_min _ _,
    Cluster.bestReplace_earliest _ _⟩, ?_⟩
  intro e eNE he heNE
  subst he
  unfold replScore
  rw [if_pos rfl, if_neg heNE]
  have hle := age_by8_le tt.generation8 eNE.genBound8
  unfold DEPTH_OFFSET
  omega

theorem probe_miss_selects_min_witness :
    missSelectsMin ttC2 999 ∧ (ttC2.probe 999).eidx = 2 :=
  ⟨(probe_miss_selects_min ttC2 999 (by decide)).1, by decide⟩

/-- C6: after `clear()`, and after `resize(mbSize)` for any requested size,
every entry of the backing array is zeroed, `probe` returns `found = false`
for every key, and the bound write handle is the canonical all-zero empty
entry, which decodes to the default snapshot: null move, value 0, eval 0,
depth `DEPTH_OFFSET`, bound 0 (none), `is_pv` false. -/
theorem clear_resize_probe (tt : TranspositionTable) (mbSize key : Nat) :
    (∀ i, (tt.clear).table i = emptyCluster)
    ∧ ((tt.clear).probe key).found = false
    ∧ ((((tt.clear).probe key).tt.table (((tt.clear).probe key).cidx)).get
        (((tt.clear).probe key).eidx)) = emptyEntry
    ∧ (∀ i, (tt.resize mbSize).table i = emptyCluster)
    ∧ ((tt.resize mbSize).probe key).found = false
    ∧ ((((tt.resize mbSize).probe key).tt.table (((tt.resize mbSize).probe key).cidx)).get
        (((tt.resize mbSize).probe key).eidx)) = emptyEntry
    ∧ emptyEntry.move = MOVE_NONE ∧ emptyEntry.value = 0 ∧ emptyEntry.eval = 0
    ∧ emptyEntry.depth = DEPTH_OFFSET ∧ emptyEntry.bound = 0
    ∧ emptyEntry.is_pv = false := by
  have hall : ∀ tt' : TranspositionTable, (∀ i, tt'.table i = emptyCluster) →
      (tt'.probe key).found = false
      ∧ (((tt'.probe key).tt.table ((tt'.probe key).cidx)).get ((tt'.probe key).eidx))
          = emptyEntry := by
    intro tt' h
    have hnm : ∀ j < 3, ¬ entryMatch (key % 65536) ((tt'.table (tt'.clusterIndex key)).get j) := by
      intro j hj hmatch
      rw [h, emptyCluster_get] at hmatch
      exact hmatch.2 rfl
    have hfm : (tt'.table (tt'.clusterIndex key)).findMatch (key % 65536) = none :=
      (Cluster.findMatch_none_iff _ _).mpr hnm
    have hpr : tt'.probe key
        = { tt := tt', found := false, cidx := tt'.clusterIndex key,
            eidx := (tt'.table (tt'.clusterIndex key)).bestReplace tt'.generation8 } := by
      unfold TranspositionTable.probe
      rw [hfm]
    rw [hpr]
    exact ⟨rfl, by rw [h, emptyCluster_get]⟩
  obtain ⟨h1, h2⟩ := hall tt.clear (fun i => rfl)
  obtain ⟨h3, h4⟩ := hall (tt.resize mbSize) (fun i => rfl)
  exact ⟨fun i => rfl, h1, h2, fun i => rfl, h3, h4, rfl, rfl, rfl, rfl, rfl, rfl⟩

theorem clusterGenCount_empty (gen : Nat) (hgen : gen ≠ 0) :
    clusterGenCount gen emptyCluster = 0 := by
  unfold clusterGenCount emptyCluster emptyEntry
  simp only
  rw [show (0 : Nat) &&& GENERATION_MASK = 0 from rfl]
  rw [if_neg (fun h => hgen h.symm)]

theorem genCountPrefix_empty (tt : TranspositionTable) (hgen : tt.generation8 ≠ 0) :
    ∀ n, (∀ i < n, tt.table i = emptyCluster) → tt.genCountPrefix n = 0 := by
  intro n
  induction n with
  | zero => intro _; rfl
  | succ n ih =>
      intro h
      show tt.genCountPrefix n + clusterGenCount tt.generation8 (tt.table n) = 0
      rw [h n (by omega), clusterGenCount_empty tt.generation8 hgen,
        ih (fun i hi => h i (by omega))]

theorem genCountPrefix_full (tt : TranspositionTable) :
    ∀ n, (∀ i < n, ∀ j < 3,
        ((tt.table i).get j).genBound8 &&& GENERATION_MASK = tt.generation8) →
      tt.genCountPrefix n = 3 * n := by
  intro n
  induction n with
  | zero => intro _; rfl
  | succ n ih =>
      intro h
      show tt.genCountPrefix n + clusterGenCount tt.generation8 (tt.table n) = 3 * (n + 1)
      have hc : clusterGenCount tt.generation8 (tt.table n) = 3 := by
        unfold clusterGenCount
        rw [show (tt.table n).e0 = (tt.table n).get 0 from rfl,
          show (tt.table n).e1 = (tt.table n).get 1 from rfl,
          show (tt.table n).e2 = (tt.table n).get 2 from rfl]
        rw [if_pos (h n (by omega) 0 (by omega)), if_pos (h n (by omega) 1 (by omega)),
          if_pos (h n (by omega) 2 (by omega))]
      rw [hc, ih (fun i hi => h i (by omega))]
      omega

/-- C9 (amended): `hashfull()` is the matching-generation entry count over
the fixed 1000-cluster sampled prefix, scaled to parts-per-thousand; on an
all-zero sampled prefix it returns 0 provided the current generation byte is
nonzero (after at least one `new_search()`; at the startup generation 0 the
all-zero entries themselves count as current, see the counterexample), and
when every sampled entry carries the current generation it returns 1000. It
is a pure function of the table state. -/
theorem hashfull_estimate (tt : TranspositionTable) :
    (tt.generation8 ≠ 0 → (∀ i < 1000, tt.table i = emptyCluster) → tt.hashfull = 0)
    ∧ ((∀ i < 1000, ∀ j < 3,
          ((tt.table i).get j).genBound8 &&& GENERATION_MASK = tt.generation8) →
        tt.hashfull = 1000)
    ∧ tt.hashfull = tt.genCountPrefix 1000 / 3 := by
  refine ⟨?_, ?_, rfl⟩
  · intro hgen h
    show tt.genCountPrefix 1000 / 3 = 0
    rw [genCountPrefix_empty tt hgen 1000 h]
  · intro h
    show tt.genCountPrefix 1000 / 3 = 1000
    rw [genCountPrefix_full tt 1000 h]

theorem hashfull_estimate_witness :
    ttC9.hashfull = 0 ∧ ttC9full.hashfull = 1000 :=
  ⟨(hashfull_estimate ttC9).1 (by decide) (fun i _ => rfl),
   (hashfull_estimate ttC9full).2.1 (by decide)⟩

/-- C9, counterexample to the claim as stated: on the all-zero startup table
(`generation8 = 0`, every entry zeroed) `hashfull()` returns 1000, not 0,
because the zeroed generation tag of every empty entry equals the current
generation byte 0. -/
theorem hashfull_fresh_not_zero :
    ttFresh.generation8 = 0 ∧ ttFresh.hashfull = 1000 :=
  ⟨rfl, by decide⟩

theorem setEntry_table_self (tt : TranspositionTable) (ci ei : Nat) (e : TTEntry) :
    (tt.setEntry ci ei e).table ci = (tt.table ci).set ei e := by
  unfold TranspositionTable.setEntry
  simp

theorem save_overwrites (e : TTEntry) (gen key : Nat) (v : Int) (pv : Bool)
    (b : Nat) (d : Int) (m : Nat) (ev : Int)
    (hm1 : 0 < m) (hm2 : m < 65536) (hevn : ev ≠ VALUE_NONE) :
    e.save gen key v pv b d m ev = writtenEntry gen key v pv b d m ev := by
  have hmcond : ¬ (m = MOVE_NONE ∧ key % 65536 = e.key16) := by
    intro h
    unfold MOVE_NONE at h
    omega
  have hevcond : ¬ (ev = VALUE_NONE ∧ key % 65536 = e.key16) := fun h => hevn h.1
  unfold TTEntry.save writtenEntry
  rw [if_neg hmcond, if_neg hevcond, Nat.mod_eq_of_lt hm2]

theorem probe_found_eq (tt : TranspositionTable) (key i : Nat)
    (h : (tt.table (tt.clusterIndex key)).findMatch (key % 65536) = some i) :
    tt.probe key
      = { tt := tt.setEntry (tt.clusterIndex key) i
            (refreshGen tt.generation8 ((tt.table (tt.clusterIndex key)).get i)),
          found := true, cidx := tt.clusterIndex key, eidx := i } := by
  unfold TranspositionTable.probe
  rw [h]

theorem probe_none_eq (tt : TranspositionTable) (key : Nat)
    (h : (tt.table (tt.clusterIndex key)).findMatch (key % 65536) = none) :
    tt.probe key
      = { tt := tt, found := false, cidx := tt.clusterIndex key,
          eidx := (tt.table (tt.clusterIndex key)).bestReplace tt.generation8 } := by
  unfold TranspositionTable.probe
  rw [h]

theorem probe_after_write (tt1 : TranspositionTable) (key i : Nat) (E : TTEntry)
    (hi3 : i < 3) (hkey : E.key16 = key % 65536) (hne : E ≠ emptyEntry)
    (hprev : ∀ j < i, ¬ entryMatch (key % 65536) ((tt1.table (tt1.clusterIndex key)).get j)) :
    (tt1.setEntry (tt1.clusterIndex key) i E).probe key
      = { tt := (tt1.setEntry (tt1.clusterIndex key) i E).setEntry
            (tt1.clusterIndex key) i (refreshGen tt1.generation8 E),
          found := true, cidx := tt1.clusterIndex key, eidx := i } := by
  have hci : (tt1.setEntry (tt1.clusterIndex key) i E).clusterIndex key
      = tt1.clusterIndex key := rfl
  have htab : (tt1.setEntry (tt1.clusterIndex key) i E).table (tt1.clusterIndex key)
      = (tt1.table (tt1.clusterIndex key)).set i E :=
    setEntry_table_self tt1 (tt1.clusterIndex key) i E
  have hfm : ((tt1.setEntry (tt1.clusterIndex key) i E).table
      ((tt1.setEntry (tt1.clusterIndex key) i E).clusterIndex key)).findMatch (key % 65536)
      = some i := by
    rw [hci, htab]
    apply Cluster.findMatch_of _ _ _ hi3
    · rw [Cluster.get_set_self]
      exact ⟨hkey, hne⟩
    · intro j hj
      rw [Cluster.get_set_ne _ _ _ _ hi3 (by omega) (by omega)]
      exact hprev j hj
  rw [probe_found_eq _ key i hfm, hci, htab, Cluster.get_set_self]
  rfl

theorem probe_after_write_entry (tt1 : TranspositionTable) (key i : Nat) (E : TTEntry)
    (hi3 : i < 3) (hkey : E.key16 = key % 65536) (hne : E ≠ emptyEntry)
    (hprev : ∀ j < i, ¬ entryMatch (key % 65536) ((tt1.table (tt1.clusterIndex key)).get j)) :
    ((tt1.setEntry (tt1.clusterIndex key) i E).probe key).found = true
    ∧ ((((tt1.setEntry (tt1.clusterIndex key) i E).probe key).tt.table
          (((tt1.setEntry (tt1.clusterIndex key) i E).probe key).cidx)).get
          (((tt1.setEntry (tt1.clusterIndex key) i E).probe key).eidx))
        = refreshGen tt1.generation8 E := by
  rw [probe_after_write tt1 key i E hi3 hkey hne hprev]
  refine ⟨rfl, ?_⟩
  show (((tt1.setEntry (tt1.clusterIndex key) i E).setEntry (tt1.clusterIndex key) i
      (refreshGen tt1.generation8 E)).table (tt1.clusterIndex key)).get i = _
  rw [setEntry_table_self, setEntry_table_self, Cluster.set_set, Cluster.get_set_self]

theorem writtenEntry_ne_empty (gen key : Nat) (v : Int) (pv : Bool) (b : Nat)
    (d : Int) (m : Nat) (ev : Int) (hm1 : 0 < m) :
    writtenEntry gen key v pv b d m ev ≠ emptyEntry := by
  intro h
  have hmv := congrArg TTEntry.move16 h
  unfold writtenEntry emptyEntry at hmv
  simp only at hmv
  omega

theorem store_probe_roundtrip (tt1 : TranspositionTable) (key i : Nat) (v : Int)
    (pv : Bool) (b : Nat) (d : Int) (m : Nat) (ev : Int)
    (hg : tt1.generation8 < 256) (hg8 : tt1.generation8 % 8 = 0)
    (hi3 : i < 3)
    (hprev : ∀ j < i, ¬ entryMatch (key % 65536) ((tt1.table (tt1.clusterIndex key)).get j))
    (hv1 : -32768 ≤ v) (hv2 : v < 32768) (hb : b < 4)
    (hd1 : DEPTH_OFFSET ≤ d) (hd2 : d ≤ DEPTH_OFFSET + 255)
    (hm1 : 0 < m) (hm2 : m < 65536)
    (hev1 : -32768 ≤ ev) (hev2 : ev < 32768) (hevn : ev ≠ VALUE_NONE) :
    roundTripOK (tt1.store (tt1.clusterIndex key) i key v pv b d m ev)
      key v pv b d m ev := by
  have hne : writtenEntry tt1.generation8 key v pv b d m ev ≠ emptyEntry :=
    writtenEntry_ne_empty tt1.generation8 key v pv b d m ev hm1
  have hstoreq : tt1.store (tt1.clusterIndex key) i key v pv b d m ev
      = tt1.setEntry (tt1.clusterIndex key) i
          (writtenEntry tt1.generation8 key v pv b d m ev) := by
    unfold TranspositionTable.store
    rw [save_overwrites _ _ _ _ _ _ _ _ _ hm1 hm2 hevn]
  obtain ⟨hf, hE⟩ := probe_after_write_entry tt1 key i
    (writtenEntry tt1.generation8 key v pv b d m ev) hi3 rfl hne hprev
  have hp2 : (if pv then (1:Nat) else 0) < 2 := by cases pv <;> decide
  obtain ⟨hb3, hb4, _, _⟩ := genBound_bits_bounded (tt1.generation8 / 8) (by omega)
    (if pv then 1 else 0) hp2 b hb
  unfold roundTripOK
  rw [hstoreq, hE]
  refine ⟨hf, rfl, decode_encodeInt16 v hv1 hv2, decode_encodeInt16 ev hev1 hev2, ?_, ?_, ?_⟩
  · show ((((d - DEPTH_OFFSET) % 256).toNat : Int) + DEPTH_OFFSET) = d
    unfold DEPTH_OFFSET at hd1 hd2 ⊢
    omega
  · show (tt1.generation8 |||
        ((tt1.generation8 ||| ((if pv then 1 else 0) <<< 2) ||| b) &&& GENERATION_NONMASK))
        &&& 3 = b
    rw [show GENERATION_NONMASK = 7 from rfl,
      show tt1.generation8 = 8 * (tt1.generation8 / 8) by omega]
    exact hb3
  · show ((tt1.generation8 |||
        ((tt1.generation8 ||| ((if pv then 1 else 0) <<< 2) ||| b) &&& GENERATION_NONMASK))
        &&& 4 != 0) = pv
    rw [show GENERATION_NONMASK = 7 from rfl,
      show tt1.generation8 = 8 * (tt1.generation8 / 8) by omega, hb4]
    cases pv <;> rfl

/-- C1 (amended): in a single-threaded execution, after a matching probe for
key `k` binds an entry and `save` is written through that handle with a
non-null move, an eval other than `VALUE_NONE`, and all values within their
field ranges, and with no intervening overwrite, a subsequent `probe(k)`
returns `found = true` and an entry whose accessors `move()`, `value()`,
`eval()`, `depth()`, `bound()` and `is_pv()` return exactly the saved
values. (With a null move or a `VALUE_NONE` eval the prior stored move/eval
are preserved instead — see the counterexample.) -/
theorem probe_save_probe_roundtrip (tt : TranspositionTable) (key : Nat) (v : Int)
    (pv : Bool) (b : Nat) (d : Int) (m : Nat) (ev : Int)
    (hg : tt.generation8 < 256) (hg8 : tt.generation8 % 8 = 0)
    (hfound : (tt.probe key).found = true)
    (hv1 : -32768 ≤ v) (hv2 : v < 32768) (hb : b < 4)
    (hd1 : DEPTH_OFFSET ≤ d) (hd2 : d ≤ DEPTH_OFFSET + 255)
    (hm1 : 0 < m) (hm2 : m < 65536)
    (hev1 : -32768 ≤ ev) (hev2 : ev < 32768) (hevn : ev ≠ VALUE_NONE) :
    roundTripOK ((tt.probe key).tt.store (tt.probe key).cidx (tt.probe key).eidx
      key v pv b d m ev) key v pv b d m ev := by
  cases hfm : (tt.table (tt.clusterIndex key)).findMatch (key % 65536) with
  | none =>
      exfalso
      rw [probe_none_eq tt key hfm] at hfound
      exact Bool.false_ne_true hfound
  | some i =>
      obtain ⟨hi3, hmatch, hprev⟩ := Cluster.findMatch_spec _ _ _ hfm
      rw [probe_found_eq tt key i hfm]
      show roundTripOK ((tt.setEntry (tt.clusterIndex key) i
          (refreshGen tt.generation8 ((tt.table (tt.clusterIndex key)).get i))).store
          (tt.clusterIndex key) i key v pv b d m ev) key v pv b d m ev
      refine store_probe_roundtrip _ key i v pv b d m ev hg hg8 hi3 ?_
        hv1 hv2 hb hd1 hd2 hm1 hm2 hev1 hev2 hevn
      intro j hj
      have hgetj : ((tt.setEntry (tt.clusterIndex key) i
            (refreshGen tt.generation8 ((tt.table (tt.clusterIndex key)).get i))).table
            (tt.clusterIndex key)).get j
          = (tt.table (tt.clusterIndex key)).get j := by
        rw [setEntry_table_self, Cluster.get_set_ne _ _ _ _ hi3 (by omega) (by omega)]
      show ¬ entryMatch (key % 65536) (((tt.setEntry (tt.clusterIndex key) i
          (refreshGen tt.generation8 ((tt.table (tt.clusterIndex key)).get i))).table
          (tt.clusterIndex key)).get j)
      rw [hgetj]
      exact hprev j hj

theorem probe_save_probe_roundtrip_witness :
    roundTripOK ((ttC1.probe 5).tt.store (ttC1.probe 5).cidx (ttC1.probe 5).eidx
      5 100 true 2 3 20 (-50)) 5 100 true 2 3 20 (-50) :=
  probe_save_probe_roundtrip ttC1 5 100 true 2 3 20 (-50) (by decide) (by decide)
    (by decide) (by decide) (by decide) (by decide) (by decide) (by decide)
    (by decide) (by decide) (by decide) (by decide) (by decide)

/-- C1, counterexample to the claim as stated: `ttC1` holds an entry for key
5 whose stored move is 7; a matching probe binds it and `save` is called
through the handle with move `MOVE_NONE` (see `ttC1b`). The subsequent probe
hits, but its `move()` accessor returns the preserved old move 7, not the
saved move `MOVE_NONE` — so the probed data is not exactly what was passed
to `save`. -/
theorem probe_save_null_move_counterexample :
    probeC1a.found = true
    ∧ probeC1b.found = true
    ∧ ((probeC1b.tt.table probeC1b.cidx).get probeC1b.eidx).move = 7
    ∧ (7 : Nat) ≠ MOVE_NONE := by
  refine ⟨by decide, by decide, by decide, by decide⟩

end Stockfish
